import Mathlib

/-!
Verification development for the certificate-trust decision engine of the
repository: the `tls` package (fingerprint TLS configs, global pin registry)
and the `ca` package (trust-pool composition, pin-only verification callback,
fingerprint codec), shallowly embedded from the Go source.

External primitives (X.509 parsing, chain validation against a root pool,
SHA-256 hashing, PEM decoding, file reading, the OS root pool) enter the
model as explicit environment parameters.  Raw DER blobs and parsed
certificates are represented by identifiers (`Nat`); a 32-byte digest is a
`List Nat`; an `x509.CertPool` is the list of certificates it contains
(`CertPool.AddCert` deduplicates by content digest in the Go standard
library, so the list may carry duplicates the real pool collapses;
membership, which is what verification and the theorems below consume, is
unaffected).
-/

set_option autoImplicit false

/-- Go `error` values produced by the verification callbacks: either a
chain-validation error propagated from `cert.Verify` (identified by a
numeric code of the environment) or an error value built from a message. -/
inductive GoError
  | verifyErr (e : Nat)
  | strErr (msg : String)
deriving DecidableEq

/-- Value of one hex digit, as accepted by Go `encoding/hex` (both letter
cases), `none` for a non-hex character. -/
def hexDigitVal (c : Char) : Option Nat :=
  if '0' ≤ c ∧ c ≤ '9' then some (c.toNat - '0'.toNat)
  else if 'a' ≤ c ∧ c ≤ 'f' then some (c.toNat - 'a'.toNat + 10)
  else if 'A' ≤ c ∧ c ≤ 'F' then some (c.toNat - 'A'.toNat + 10)
  else none

/-- Go `hex.DecodeString`: decodes consecutive digit pairs into bytes; fails
on an odd number of digits or on any non-hex character. -/
def hexDecodeBytes : List Char → Option (List Nat)
  | [] => some []
  | [_] => none
  | a :: b :: rest =>
    match hexDigitVal a, hexDigitVal b, hexDecodeBytes rest with
    | some hi, some lo, some tl => some ((16 * hi + lo) :: tl)
    | _, _, _ => none

/-- Go `unicode.IsSpace`: the rune set removed at both ends by
`strings.TrimSpace`. -/
def goIsSpace (c : Char) : Bool :=
  (0x9 ≤ c.toNat && c.toNat ≤ 0xD) || c == ' ' ||
  c.toNat == 0x85 || c.toNat == 0xA0 || c.toNat == 0x1680 ||
  (0x2000 ≤ c.toNat && c.toNat ≤ 0x200A) ||
  c.toNat == 0x2028 || c.toNat == 0x2029 ||
  c.toNat == 0x202F || c.toNat == 0x205F || c.toNat == 0x3000

/-- Go `strings.TrimSpace` on a character list. -/
def trimSpace (l : List Char) : List Char :=
  ((l.dropWhile goIsSpace).reverse.dropWhile goIsSpace).reverse

/-- Pin-match predicate written from the spec's words (§4.3 `Matches`):
true exactly when some certificate of the presented raw chain parses and its
SHA-256 content fingerprint is byte-equal to some fingerprint of the pin
set.  Used to compare the code's trust decisions against the spec. -/
def matchesSpec (parse : Nat → Option Nat) (sum256 : Nat → List Nat)
    (pinSet : List (List Nat)) (rawCerts : List Nat) : Bool :=
  rawCerts.any fun raw =>
    match parse raw with
    | some cert => pinSet.any fun fp => sum256 cert == fp
    | none => false

namespace Tls

/-- External primitives used by the `tls` package: `x509.ParseCertificate`
on a raw DER blob, `cert.Verify` against the system roots at the current
time (`none` = success, `some e` = the validation error `e`), and
`sha256.Sum256 cert.Raw`. -/
structure Env where
  parse : Nat → Option Nat := fun _ => none
  verify : Nat → Option Nat := fun _ => some 0
  sum256 : Nat → List Nat := fun _ => []

/-- Loop body of the callback returned by
`verifyPeerCertificateAndFingerprints`: walk the raw chain carrying the
most recent chain-validation error `preErr`; a certificate that parses and
chain-validates, or that parses and matches a pin, accepts immediately;
the loop's final value is `preErr`. -/
def verifyLoop (env : Env) (fps : List (List Nat)) :
    List Nat → Option GoError → Option GoError
  | [], preErr => preErr
  | rawCert :: rest, preErr =>
    match env.parse rawCert with
    | none => verifyLoop env fps rest preErr
    | some cert =>
      match env.verify cert with
      | none => none
      | some err =>
        if fps.any (fun fp => env.sum256 cert == fp) then none
        else verifyLoop env fps rest (some (.verifyErr err))

/-- Go `verifyPeerCertificateAndFingerprints`: the verification callback of
the `tls` package, closed over a pin list and the original
`insecureSkipVerify` flag. -/
def verifyPeerCertificateAndFingerprints (env : Env) (fps : List (List Nat))
    (insecureSkipVerify : Bool) (rawCerts : List Nat) : Option GoError :=
  if insecureSkipVerify then none
  else verifyLoop env fps rawCerts none

/-- Go `convertFingerprint` of the `tls` package: plain hex decode (no
colon or whitespace stripping), then require exactly 32 bytes. -/
def convertFingerprint (fingerprint : String) : Option (List Nat) :=
  match hexDecodeBytes fingerprint.data with
  | none => none
  | some fpByte => if fpByte.length = 32 then some fpByte else none

/-- Model of `tls.Config` restricted to the fields the embedded code
touches.  A `nil` `VerifyPeerCertificate` (transport does its own checks)
is modelled by the default accept-all placeholder; every config examined by
a theorem below has had a real callback installed. -/
structure Config where
  insecureSkipVerify : Bool := false
  rootCAs : List Nat := []
  verifyPeerCertificate : List Nat → Option GoError := fun _ => none

/-- Go `AddCertFingerprint`: parse the string and append to the global pin
list (the list is passed and returned explicitly instead of living in a
package-level variable). -/
def AddCertFingerprint (globalFingerprints : List (List Nat))
    (fingerprint : String) : Option (List (List Nat)) :=
  match convertFingerprint fingerprint with
  | none => none
  | some fpByte => some (globalFingerprints ++ [fpByte])

/-- Go `GetSpecifiedFingerprintTLSConfig` of the `tls` package: `none`
models the `nil, err` return on a malformed fingerprint. -/
def GetSpecifiedFingerprintTLSConfig (env : Env) (tlsConfig : Option Config)
    (fingerprint : String) : Option Config :=
  match convertFingerprint fingerprint with
  | none => none
  | some fingerprintBytes =>
    match tlsConfig with
    | none => some
        { insecureSkipVerify := true,
          verifyPeerCertificate :=
            verifyPeerCertificateAndFingerprints env [fingerprintBytes] false }
    | some cfg => some
        { cfg with
          verifyPeerCertificate :=
            verifyPeerCertificateAndFingerprints env [fingerprintBytes]
              cfg.insecureSkipVerify,
          insecureSkipVerify := true }

/-- Go `GetGlobalFingerprintTLSConfig` of the `tls` package. -/
def GetGlobalFingerprintTLSConfig (env : Env)
    (globalFingerprints : List (List Nat)) (tlsConfig : Option Config) :
    Config :=
  let shouldSkipVerify :=
    globalFingerprints.length != 0 ||
      (match tlsConfig with
       | some cfg => cfg.insecureSkipVerify
       | none => false)
  match tlsConfig with
  | none =>
      { insecureSkipVerify := shouldSkipVerify,
        verifyPeerCertificate :=
          verifyPeerCertificateAndFingerprints env globalFingerprints false }
  | some cfg =>
      { cfg with
        verifyPeerCertificate :=
          verifyPeerCertificateAndFingerprints env globalFingerprints
            cfg.insecureSkipVerify,
        insecureSkipVerify := shouldSkipVerify }

/-- Helper for stating the tls callback's acceptance condition: the raw
blob parses and either chain-validates or matches a pin. -/
def certOkOrPinned (env : Env) (fps : List (List Nat)) (raw : Nat) : Bool :=
  match env.parse raw with
  | some cert =>
      (env.verify cert).isNone || fps.any (fun fp => env.sum256 cert == fp)
  | none => false

/-- Helper for stating the tls callback's acceptance condition: the raw
blob parses and chain-validates against the system roots. -/
def certChainValidates (env : Env) (raw : Nat) : Bool :=
  match env.parse raw with
  | some cert => (env.verify cert).isNone
  | none => false

end Tls

namespace Ca

/-- External primitives used by the `ca` package: `x509.ParseCertificate`,
`sha256.Sum256 cert.Raw`, `pem.Decode` (bytes of the first PEM block),
`AppendCertsFromPEM` (the certificates a PEM bundle successfully yields),
`x509.SystemCertPool` (`none` = retrieval error), the certificates of the
embedded `ca-certificates.crt` bundle, the two environment disable flags,
`os.ReadFile`, and chain validation of a peer certificate against a given
root pool. -/
structure Env where
  parse : Nat → Option Nat := fun _ => none
  sum256 : Nat → List Nat := fun _ => []
  pemDecode : String → Option Nat := fun _ => none
  pemParseAll : String → List Nat := fun _ => []
  systemCertPool : Option (List Nat) := none
  embedCerts : List Nat := []
  disableSystemCa : Bool := false
  disableEmbedCa : Bool := false
  readFile : String → Option String := fun _ => none
  verifyWith : Nat → List Nat → Bool := fun _ _ => false

/-- Shared mutable state of the `ca` package: the custom-certificate slice
`trustCerts` and the derived pool `globalCertPool` (`none` models the `nil`
pool before lazy initialization). -/
structure CAState where
  trustCerts : List Nat
  globalCertPool : Option (List Nat)
deriving DecidableEq

/-- Go `errNotMatch`. -/
def errNotMatch : String := "certificate fingerprints do not match"

/-- Go `verifyFingerprint` of the `ca` package: scan the raw chain; accept
on the first certificate that parses and whose SHA-256 digest is byte-equal
to the pin; reject with `errNotMatch` otherwise. -/
def verifyFingerprint (env : Env) (fingerprint : List Nat) :
    List Nat → Option GoError
  | [] => some (.strErr errNotMatch)
  | rawCert :: rest =>
    match env.parse rawCert with
    | some cert =>
        if fingerprint == env.sum256 cert then none
        else verifyFingerprint env fingerprint rest
    | none => verifyFingerprint env fingerprint rest

/-- Go `convertFingerprint` of the `ca` package: drop every colon, trim
surrounding whitespace, hex-decode, and require exactly 32 bytes. -/
def convertFingerprint (fingerprint : String) : Option (List Nat) :=
  match hexDecodeBytes (trimSpace (fingerprint.data.filter (fun c => !(c == ':')))) with
  | none => none
  | some fpByte => if fpByte.length = 32 then some fpByte else none

/-- Outcome of `AddCertificate`: an error return carries the (unchanged)
state, success carries the updated state, and `panicked` models a Go
runtime panic (`CertPool.AddCert` on the `nil` pool). -/
inductive AddOutcome
  | panicked
  | errored (msg : String) (s : CAState)
  | ok (s : CAState)
deriving DecidableEq

/-- Go `AddCertificate`.  `log.Fatalln` on the PEM-decode failure path
belongs to the repository's `log` package, which is not part of the
embedded source; modelled from the spec: configuration-time errors are
returned to the caller synchronously and the process is never terminated on
them, so the call logs and falls through to the error return. -/
def AddCertificate (env : Env) (s : CAState) (certificate : String) :
    AddOutcome :=
  if certificate = "" then .errored "certificate is empty" s
  else
    match env.pemDecode certificate with
    | none => .errored "decode certificate failed" s
    | some block =>
      match env.parse block with
      | some cert =>
        match s.globalCertPool with
        | some pool =>
            .ok { trustCerts := s.trustCerts ++ [cert],
                  globalCertPool := some (pool ++ [cert]) }
        | none => .panicked
      | none => .errored "add certificate failed" s

/-- Per-entry loop of Go `AddCertificateKeyPair`: each DER entry is parsed
with `x509.ParseCertificate`; on success it is appended to `trustCerts` and
to the pool.  On failure the code only logs a warning, then still appends
the `nil` certificate to `trustCerts` and calls
`globalCertPool.AddCert(nil)`, which panics in the Go standard library
(`adding nil Certificate to CertPool`); the panic, as well as `AddCert` on
a `nil` pool, is modelled by `none`. -/
def addCertLoop (env : Env) (s : CAState) : List Nat → Option CAState
  | [] => some s
  | certPEM :: rest =>
    match env.parse certPEM with
    | some customCertificate =>
      match s.globalCertPool with
      | some pool =>
          addCertLoop env
            { trustCerts := s.trustCerts ++ [customCertificate],
              globalCertPool := some (pool ++ [customCertificate]) } rest
      | none => none
    | none => none

/-- Go `AddCertificateKeyPair`.  The upstream `CN.ParseCert` (not part of
the embedded source) produces the DER entry list `certKeyPair.Certificate`;
it is taken here as the input (on its failure the code only warns and the
list is empty, so the loop is a no-op). -/
def AddCertificateKeyPair (env : Env) (s : CAState)
    (certDerChain : List Nat) : Option CAState :=
  addCertLoop env s certDerChain

/-- Go `initializeCertPool`: base = OS roots (empty when disabled, or when
`SystemCertPool` fails), then every custom certificate, then the embedded
bundle unless disabled. -/
def initializeCertPool (env : Env) (trustCerts : List Nat) : List Nat :=
  (if env.disableSystemCa then [] else env.systemCertPool.getD []) ++
    trustCerts ++
    (if env.disableEmbedCa then [] else env.embedCerts)

/-- Go `ResetCertificate`: clear `trustCerts`, rebuild the pool. -/
def ResetCertificate (env : Env) (_s : CAState) : CAState :=
  { trustCerts := [], globalCertPool := some (initializeCertPool env []) }

/-- Go `getCertPool`: lazily initialize the pool on first use, returning
the pool together with the possibly updated state. -/
def getCertPool (env : Env) (s : CAState) : List Nat × CAState :=
  match s.globalCertPool with
  | some pool => (pool, s)
  | none =>
    let pool := initializeCertPool env s.trustCerts
    (pool, { s with globalCertPool := some pool })

/-- Certificate-material selection and `RootCAs` assignment of Go
`GetTLSConfig` (everything before the `len(fingerprint) > 0` branch):
a custom CA file path wins over an inline CA string; non-empty material is
parsed into a fresh pool (error when it yields no certificate); otherwise
`RootCAs` becomes the lazily initialized global pool.  `none` models the
error returns. -/
def getTLSConfigBase (env : Env) (s : CAState) (cfg : Tls.Config)
    (customCA customCAString : String) : Option (Tls.Config × CAState) :=
  match
    (if customCA.length > 0 then
      match env.readFile customCA with
      | none => none
      | some content => some content
    else if customCAString ≠ "" then some customCAString
    else some "") with
  | none => none
  | some certificate =>
    if certificate.length > 0 then
      let parsed := env.pemParseAll certificate
      if parsed.isEmpty then none
      else some ({ cfg with rootCAs := parsed }, s)
    else
      let ps := getCertPool env s
      some ({ cfg with rootCAs := ps.1 }, ps.2)

/-- Go `GetTLSConfig` of the `ca` package.  When a fingerprint is supplied
the code re-runs itself through `GetGlobalTLSConfig` (an empty-argument
call, inlined here as a second `getTLSConfigBase` pass that cannot fail),
then installs `verifyFingerprint` and forces `InsecureSkipVerify`. -/
def GetTLSConfig (env : Env) (s : CAState) (tlsConfig : Option Tls.Config)
    (fingerprint customCA customCAString : String) :
    Option (Tls.Config × CAState) :=
  let cfg0 := match tlsConfig with | some cfg => cfg | none => {}
  match getTLSConfigBase env s cfg0 customCA customCAString with
  | none => none
  | some (cfg1, s1) =>
    if fingerprint.length > 0 then
      match convertFingerprint fingerprint with
      | none => none
      | some fingerprintBytes =>
        match getTLSConfigBase env s1 cfg1 "" "" with
        | none => none
        | some (cfg2, s2) =>
          some ({ cfg2 with
                    verifyPeerCertificate := verifyFingerprint env fingerprintBytes,
                    insecureSkipVerify := true }, s2)
    else some (cfg1, s1)

/-- Go `GetSpecifiedFingerprintTLSConfig` of the `ca` package. -/
def GetSpecifiedFingerprintTLSConfig (env : Env) (s : CAState)
    (tlsConfig : Option Tls.Config) (fingerprint : String) :
    Option (Tls.Config × CAState) :=
  GetTLSConfig env s tlsConfig fingerprint "" ""

end Ca

/-! Locking-discipline model.  Each mutator of the shared trust state is
abstracted to the sequence of mutex and shared-state events its body
performs, in source order; a `mutate` event is a write to `trustCerts`,
`globalCertPool` or `globalFingerprints`. -/

/-- A mutex acquisition, a mutex release, or a write to the shared trust
state. -/
inductive LockEvent
  | lock
  | unlock
  | mutate
deriving DecidableEq

/-- Fold of `mutationsLocked`, carrying the current hold-depth of the
exclusive lock. -/
def mutationsLockedAux : Nat → List LockEvent → Bool
  | _, [] => true
  | d, .lock :: r => mutationsLockedAux (d + 1) r
  | d, .unlock :: r => mutationsLockedAux (d - 1) r
  | d, .mutate :: r => (d != 0) && mutationsLockedAux d r

/-- Every `mutate` event of the trace happens while the exclusive lock is
held. -/
def mutationsLocked (tr : List LockEvent) : Bool :=
  mutationsLockedAux 0 tr

/-- Event trace of Go `AddCertificate`: `mutex.Lock()` with a deferred
`Unlock`; on the success path two shared-state writes (`trustCerts`
append, `globalCertPool.AddCert`), none on the error paths. -/
def addCertificateTrace (mutates : Bool) : List LockEvent :=
  [.lock] ++ (if mutates then [.mutate, .mutate] else []) ++ [.unlock]

/-- Event trace of Go `AddCertFingerprint` of the `tls` package: after a
successful `convertFingerprint`, `mutex.Lock()`, one write to
`globalFingerprints`, `mutex.Unlock()`; nothing on the parse-error path. -/
def addCertFingerprintTrace (converted : Bool) : List LockEvent :=
  if converted then [.lock, .mutate, .unlock] else []

/-- Event trace of Go `ResetCertificate`: `mutex.Lock()` with a deferred
`Unlock`, a write clearing `trustCerts`, and the pool rebuild write of
`initializeCertPool`. -/
def resetCertificateTrace : List LockEvent :=
  [.lock, .mutate, .mutate, .unlock]

/-- Event trace of Go `AddCertificateKeyPair`: the function acquires no
lock at all; each bundle entry performs two shared-state writes
(`trustCerts` append and `globalCertPool.AddCert`). -/
def addCertificateKeyPairTrace (entries : Nat) : List LockEvent :=
  (List.replicate entries ([.mutate, .mutate] : List LockEvent)).flatten

/-! Hex formatter, used to state the round-trip property of the
fingerprint codec over every colon/case formatting of a digest. -/

/-- Hex character of a digit value below 16, in the requested letter
case. -/
def hexDigitChar (upper : Bool) (d : Nat) : Char :=
  if d < 10 then Char.ofNat ('0'.toNat + d)
  else if upper then Char.ofNat ('A'.toNat + d - 10)
  else Char.ofNat ('a'.toNat + d - 10)

/-- Two-character hex rendering of one byte. -/
def byteToHex (upper : Bool) (b : Nat) : List Char :=
  [hexDigitChar upper (b / 16), hexDigitChar upper (b % 16)]

/-- Hex rendering of a digest, optionally colon-separated between
bytes. -/
def formatFingerprint (upper withColons : Bool) (bs : List Nat) : String :=
  String.mk (if withColons then (List.intersperse [':'] (bs.map (byteToHex upper))).flatten
             else (bs.map (byteToHex upper)).flatten)

/-! Concrete digests, fingerprint strings, and test environments used by
the closed exhibits and witnesses below. -/

/-- The all-zero 32-byte digest. -/
def fpZeros : List Nat := List.replicate 32 0

/-- The all-one 32-byte digest. -/
def fpOnes : List Nat := List.replicate 32 1

/-- Sixty-four `0` characters: the plain hex rendering of `fpZeros`. -/
def zeros64 : String := String.mk (List.replicate 64 '0')

/-- Colon-separated rendering of `fpZeros` (`00:00:...:00`). -/
def colonZeros : String :=
  String.mk ((List.replicate 31 (['0', '0', ':'] : List Char)).flatten ++ ['0', '0'])

/-- Environment in which no raw certificate parses. -/
def tlsEnvParseFail : Tls.Env := { sum256 := fun _ => fpOnes }

/-- Environment in which every blob parses to itself, every certificate
chain-validates against the system roots, and every digest is `fpOnes`. -/
def tlsEnvChainOk : Tls.Env :=
  { parse := fun n => some n, verify := fun _ => none, sum256 := fun _ => fpOnes }

/-- Environment for the `ca` package in which nothing parses. -/
def caEnvParseFail : Ca.Env := { sum256 := fun _ => fpOnes }

/-- Environment for the `ca` package: blobs parse to themselves;
certificate 2 carries the digest `fpZeros`, every other certificate
`fpOnes`. -/
def caEnvPin : Ca.Env :=
  { parse := fun n => some n,
    sum256 := fun n => if n = 2 then fpZeros else fpOnes }

/-- Environment for the `ca` package with table-driven PEM decoding: the
text "goodPEM" decodes to block 3, which parses to certificate 3; every
other text fails to decode. -/
def caEnvPem : Ca.Env :=
  { parse := fun n => if n = 3 then some 3 else none,
    pemDecode := fun t => if t = "goodPEM" then some 3 else none,
    sum256 := fun _ => fpOnes }

/-- Environment for the `ca` package in which blob 7 fails to parse and
every other blob parses to itself. -/
def caEnvBadSeven : Ca.Env :=
  { parse := fun n => if n = 7 then none else some n,
    sum256 := fun _ => fpOnes }

/-- Environment for the `ca` package with OS root 10 and embedded root 11;
chain validation of a peer succeeds exactly when the peer certificate
itself is in the root pool. -/
def caEnvRoots : Ca.Env :=
  { parse := fun n => some n,
    sum256 := fun _ => fpOnes,
    systemCertPool := some [10],
    embedCerts := [11],
    verifyWith := fun peer pool => decide (peer ∈ pool) }

/-- Variant of `caEnvRoots` with both disable flags set. -/
def caEnvRootsDisabled : Ca.Env :=
  { caEnvRoots with disableSystemCa := true, disableEmbedCa := true }

/-- Config whose caller-set skip flag is already true. -/
def cfgSkipTrue : Tls.Config := { insecureSkipVerify := true }

/-- Config produced by the `tls`-package `GetSpecifiedFingerprintTLSConfig`
from `cfgSkipTrue` and the all-zero fingerprint. -/
def cfgSkipTrueSpecified : Tls.Config :=
  { insecureSkipVerify := true, rootCAs := [],
    verifyPeerCertificate :=
      Tls.verifyPeerCertificateAndFingerprints tlsEnvChainOk [fpZeros] true }

/-- Config produced by the `ca`-package `GetTLSConfig` from an empty state
and the all-zero fingerprint. -/
def c2CaConfig : Tls.Config :=
  { insecureSkipVerify := true, rootCAs := [],
    verifyPeerCertificate := Ca.verifyFingerprint caEnvPin fpZeros }

/-- Config produced by the `tls`-package `GetSpecifiedFingerprintTLSConfig`
from a nil config and the all-zero fingerprint. -/
def c2TlsConfig : Tls.Config :=
  { insecureSkipVerify := true, rootCAs := [],
    verifyPeerCertificate :=
      Tls.verifyPeerCertificateAndFingerprints tlsEnvChainOk [fpZeros] false }

/-! Characterization lemmas shared by the theorems below. -/

theorem matchOption_eq_true {p : Option Nat} {f : Nat → Bool} :
    (match p with | some c => f c | none => false) = true ↔
      ∃ c, p = some c ∧ f c = true := by
  cases p <;> simp

theorem matchesSpec_eq_true_iff (parse : Nat → Option Nat)
    (sum256 : Nat → List Nat) (pins : List (List Nat)) (chain : List Nat) :
    matchesSpec parse sum256 pins chain = true ↔
      ∃ raw ∈ chain, ∃ cert, parse raw = some cert ∧
        ∃ fp ∈ pins, sum256 cert = fp := by
  simp only [matchesSpec, List.any_eq_true, matchOption_eq_true, beq_iff_eq]

theorem verifyFingerprint_eq_ite (env : Ca.Env) (fp : List Nat) :
    ∀ chain : List Nat,
      Ca.verifyFingerprint env fp chain =
        if matchesSpec env.parse env.sum256 [fp] chain then none
        else some (.strErr Ca.errNotMatch)
  | [] => by simp [Ca.verifyFingerprint, matchesSpec]
  | raw :: rest => by
    have ih := verifyFingerprint_eq_ite env fp rest
    cases h : env.parse raw with
    | none => simpa [Ca.verifyFingerprint, matchesSpec, h] using ih
    | some cert =>
      by_cases hb : fp = env.sum256 cert
      · simp [Ca.verifyFingerprint, matchesSpec, h, hb]
      · have hb2 : ¬ env.sum256 cert = fp := fun hh => hb hh.symm
        simp [Ca.verifyFingerprint, matchesSpec, h, hb, hb2, ih]

theorem verifyLoop_some_eq_none_iff (env : Tls.Env) (fps : List (List Nat)) :
    ∀ (chain : List Nat) (e : GoError),
      (Tls.verifyLoop env fps chain (some e) = none ↔
        chain.any (Tls.certOkOrPinned env fps) = true)
  | [], _ => by simp [Tls.verifyLoop]
  | raw :: rest, e => by
    have ih := verifyLoop_some_eq_none_iff env fps rest
    cases h : env.parse raw with
    | none => simp [Tls.verifyLoop, Tls.certOkOrPinned, h, ih e]
    | some cert =>
      cases hv : env.verify cert with
      | none => simp [Tls.verifyLoop, Tls.certOkOrPinned, h, hv]
      | some err =>
        by_cases hp : (fps.any fun fp => env.sum256 cert == fp) = true
        · simp [Tls.verifyLoop, Tls.certOkOrPinned, h, hv, hp]
        · simp [Tls.verifyLoop, Tls.certOkOrPinned, h, hv, hp,
            ih (.verifyErr err)]

theorem verifyLoop_none_eq_none_iff (env : Tls.Env) (fps : List (List Nat)) :
    ∀ chain : List Nat,
      (Tls.verifyLoop env fps chain none = none ↔
        (chain.any (Tls.certOkOrPinned env fps) = true ∨
         chain.all (fun raw => !(env.parse raw).isSome) = true))
  | [] => by simp [Tls.verifyLoop]
  | raw :: rest => by
    have ih := verifyLoop_none_eq_none_iff env fps rest
    cases h : env.parse raw with
    | none => simp [Tls.verifyLoop, Tls.certOkOrPinned, h, ih]
    | some cert =>
      cases hv : env.verify cert with
      | none => simp [Tls.verifyLoop, Tls.certOkOrPinned, h, hv]
      | some err =>
        by_cases hp : (fps.any fun fp => env.sum256 cert == fp) = true
        · simp [Tls.verifyLoop, Tls.certOkOrPinned, h, hv, hp]
        · simp [Tls.verifyLoop, Tls.certOkOrPinned, h, hv, hp,
            verifyLoop_some_eq_none_iff env fps rest (.verifyErr err)]

theorem hexDecodeBytes_isSome_eq :
    ∀ l : List Char, (hexDecodeBytes l).isSome =
      ((l.length % 2 == 0) && l.all fun c => (hexDigitVal c).isSome)
  | [] => by simp [hexDecodeBytes]
  | [a] => by simp [hexDecodeBytes]
  | a :: b :: rest => by
    have ih := hexDecodeBytes_isSome_eq rest
    have hm : (rest.length + 1 + 1) % 2 = rest.length % 2 := by omega
    have key : (hexDecodeBytes (a :: b :: rest)).isSome =
        ((hexDigitVal a).isSome &&
          ((hexDigitVal b).isSome && (hexDecodeBytes rest).isSome)) := by
      cases ha : hexDigitVal a <;> cases hb : hexDigitVal b <;>
        cases hr : hexDecodeBytes rest <;> simp [hexDecodeBytes, ha, hb, hr]
    rw [key, ih]
    simp [List.all_cons, hm, Bool.and_assoc, Bool.and_left_comm]

theorem hexDecodeBytes_isSome_iff (l : List Char) :
    (hexDecodeBytes l).isSome = true ↔
      (l.length % 2 = 0 ∧ ∀ c ∈ l, (hexDigitVal c).isSome = true) := by
  rw [hexDecodeBytes_isSome_eq]
  simp [List.all_eq_true]

theorem hexDecodeBytes_length :
    ∀ (l : List Char) (bs : List Nat), hexDecodeBytes l = some bs →
      2 * bs.length = l.length
  | [], bs => by intro h; simp [hexDecodeBytes] at h; simp [← h]
  | [_], bs => by intro h; simp [hexDecodeBytes] at h
  | a :: b :: rest, bs => by
    have ih := hexDecodeBytes_length rest
    cases ha : hexDigitVal a <;> cases hb : hexDigitVal b <;>
      cases hr : hexDecodeBytes rest <;>
      intro h <;> simp [hexDecodeBytes, ha, hb, hr] at h
    have := ih _ hr
    simp [← h]
    omega

theorem hexDigitChar_spec (upper : Bool) (d : Nat) (hd : d < 16) :
    hexDigitVal (hexDigitChar upper d) = some d ∧
    ¬ hexDigitChar upper d = ':' ∧ goIsSpace (hexDigitChar upper d) = false := by
  interval_cases d <;> cases upper <;> decide

theorem hexDecodeBytes_byteToHex (upper : Bool) (b : Nat) (hb : b < 256)
    (rest : List Char) :
    hexDecodeBytes (byteToHex upper b ++ rest) =
      (hexDecodeBytes rest).map (fun tl => b :: tl) := by
  have h1 : b / 16 < 16 := by omega
  have h2 : b % 16 < 16 := by omega
  have e1 := (hexDigitChar_spec upper _ h1).1
  have e2 := (hexDigitChar_spec upper _ h2).1
  cases hr : hexDecodeBytes rest <;>
    simp [byteToHex, hexDecodeBytes, e1, e2, hr, Nat.div_add_mod]

theorem hexDecodeBytes_flatten_byteToHex (upper : Bool) :
    ∀ bs : List Nat, (∀ b ∈ bs, b < 256) →
      hexDecodeBytes ((bs.map (byteToHex upper)).flatten) = some bs
  | [], _ => by simp [hexDecodeBytes]
  | b :: bs, h => by
    have ih := hexDecodeBytes_flatten_byteToHex upper bs
      (fun x hx => h x (List.mem_cons_of_mem _ hx))
    have hb : b < 256 := h b (List.mem_cons_self _ _)
    simp [hexDecodeBytes_byteToHex upper b hb, ih]

theorem byteToHex_chars (upper : Bool) (b : Nat) (hb : b < 256) :
    ∀ c ∈ byteToHex upper b, ¬ c = ':' ∧ goIsSpace c = false := by
  have h1 : b / 16 < 16 := by omega
  have h2 : b % 16 < 16 := by omega
  intro c hc
  rcases List.mem_pair.mp hc with rfl | rfl
  · exact ⟨(hexDigitChar_spec upper _ h1).2.1, (hexDigitChar_spec upper _ h1).2.2⟩
  · exact ⟨(hexDigitChar_spec upper _ h2).2.1, (hexDigitChar_spec upper _ h2).2.2⟩

theorem filter_eq_self_of_no_colon {l : List Char} (h : ∀ c ∈ l, ¬ c = ':') :
    l.filter (fun c => !(c == ':')) = l := by
  apply List.filter_eq_self.mpr
  intro a ha
  simpa using h a ha

theorem dropWhile_eq_self_of_all_false {p : Char → Bool} :
    ∀ l : List Char, (∀ c ∈ l, p c = false) → l.dropWhile p = l
  | [], _ => rfl
  | c :: rest, h => by
    simp [List.dropWhile, h c (List.mem_cons_self _ _)]

theorem trimSpace_eq_self {l : List Char}
    (h : ∀ c ∈ l, goIsSpace c = false) : trimSpace l = l := by
  have h1 : l.dropWhile goIsSpace = l := dropWhile_eq_self_of_all_false l h
  have h2 : ∀ c ∈ l.reverse, goIsSpace c = false :=
    fun c hc => h c (List.mem_reverse.mp hc)
  simp [trimSpace, h1, dropWhile_eq_self_of_all_false _ h2]

theorem filter_colon_intersperse :
    ∀ xs : List (List Char), (∀ x ∈ xs, ∀ c ∈ x, ¬ c = ':') →
      ((List.intersperse ([':'] : List Char) xs).flatten).filter
          (fun c => !(c == ':')) = xs.flatten
  | [], _ => rfl
  | [x], h => by
    simpa using filter_eq_self_of_no_colon (h x (List.mem_singleton_self x))
  | x :: y :: rest, h => by
    have ih := filter_colon_intersperse (y :: rest)
      (fun z hz => h z (List.mem_cons_of_mem _ hz))
    have hx := filter_eq_self_of_no_colon (h x (List.mem_cons_self _ _))
    rw [show List.intersperse ([':'] : List Char) (x :: y :: rest) =
          x :: [':'] :: List.intersperse [':'] (y :: rest) from rfl]
    simp [List.filter_append, hx, ih]

theorem convertFingerprint_formatFingerprint (upper withColons : Bool)
    (bs : List Nat) (hlen : bs.length = 32) (hb : ∀ b ∈ bs, b < 256) :
    Ca.convertFingerprint (formatFingerprint upper withColons bs) = some bs := by
  have hnc : ∀ x ∈ bs.map (byteToHex upper), ∀ c ∈ x, ¬ c = ':' := by
    intro x hx c hc
    rcases List.mem_map.mp hx with ⟨b, hbmem, rfl⟩
    exact (byteToHex_chars upper b (hb b hbmem) c hc).1
  have hfilter : (formatFingerprint upper withColons bs).data.filter
      (fun c => !(c == ':')) = (bs.map (byteToHex upper)).flatten := by
    cases withColons
    · show ((bs.map (byteToHex upper)).flatten).filter (fun c => !(c == ':')) = _
      apply filter_eq_self_of_no_colon
      intro c hc
      rcases List.mem_flatten.mp hc with ⟨x, hx, hcx⟩
      exact hnc x hx c hcx
    · exact filter_colon_intersperse _ hnc
  have hnospace : ∀ c ∈ (bs.map (byteToHex upper)).flatten,
      goIsSpace c = false := by
    intro c hc
    rcases List.mem_flatten.mp hc with ⟨x, hx, hcx⟩
    rcases List.mem_map.mp hx with ⟨b, hbmem, rfl⟩
    exact (byteToHex_chars upper b (hb b hbmem) c hcx).2
  have hdecode := hexDecodeBytes_flatten_byteToHex upper bs hb
  simp [Ca.convertFingerprint, hfilter, trimSpace_eq_self hnospace,
    hdecode, hlen]

theorem any_certOkOrPinned_split (env : Tls.Env) (fps : List (List Nat)) :
    ∀ chain : List Nat,
      chain.any (Tls.certOkOrPinned env fps) =
        (chain.any (Tls.certChainValidates env) ||
          matchesSpec env.parse env.sum256 fps chain)
  | [] => rfl
  | raw :: rest => by
    have ih := any_certOkOrPinned_split env fps rest
    cases h : env.parse raw <;>
      simp [List.any_cons, matchesSpec, Tls.certOkOrPinned,
        Tls.certChainValidates, h, ih, Bool.or_assoc, Bool.or_left_comm]

theorem verifyFingerprint_none_iff_matchesSpec (env : Ca.Env)
    (fp : List Nat) (chain : List Nat) :
    Ca.verifyFingerprint env fp chain = none ↔
      matchesSpec env.parse env.sum256 [fp] chain = true := by
  rw [verifyFingerprint_eq_ite]
  by_cases h : matchesSpec env.parse env.sum256 [fp] chain = true
  · simp [h]
  · simp [h]

theorem convertCore_iff (l : List Char) :
    (match hexDecodeBytes l with
     | none => (none : Option (List Nat))
     | some fpByte =>
       if fpByte.length = 32 then some fpByte else none).isSome = true ↔
      (l.length = 64 ∧ ∀ c ∈ l, (hexDigitVal c).isSome = true) := by
  cases hd : hexDecodeBytes l with
  | none =>
    simp only [Option.isSome_none, Bool.false_eq_true, false_iff]
    intro hcontra
    have := (hexDecodeBytes_isSome_iff l).mpr ⟨by omega, hcontra.2⟩
    simp [hd] at this
  | some bs =>
    have hlen := hexDecodeBytes_length l bs hd
    by_cases h32 : bs.length = 32
    · simp only [h32, if_true, Option.isSome_some, true_iff]
      refine ⟨by omega, ?_⟩
      exact ((hexDecodeBytes_isSome_iff l).mp (by simp [hd])).2
    · simp only [h32, if_false, Option.isSome_none, Bool.false_eq_true,
        false_iff]
      intro hcontra
      omega

/-! Claim theorems. -/

/-- C1: the claim states that whenever no certificate of the presented raw
chain both parses and either chain-validates or matches a pin — in
particular for the empty chain or a chain in which every certificate fails
to parse — the installed callback (skip flag false) returns a non-nil
rejection error, an unparseable certificate never being an automatic
success.  The `tls`-package callback violates this: its final `preErr` is
still nil in those cases, so the chain is accepted.  The first two
conjuncts evaluate the code at the failing inputs (a chain whose only
certificate fails to parse, and the empty chain); the third shows the
`ca`-package pin-only callback does reject such a chain, as the claim
demands. -/
theorem tls_callback_accepts_unparseable_chain :
    Tls.verifyPeerCertificateAndFingerprints tlsEnvParseFail [fpZeros] false
      [0] = none ∧
    Tls.verifyPeerCertificateAndFingerprints tlsEnvParseFail [fpZeros] false
      [] = none ∧
    Ca.verifyFingerprint caEnvParseFail fpZeros [0] =
      some (.strErr Ca.errNotMatch) :=
  ⟨rfl, rfl, rfl⟩

/-- C4: pin matching examines the whole presented chain, not only the
leaf: the pin-only callback accepts exactly when some parseable
certificate anywhere in the chain has the pinned SHA-256 fingerprint, and
its verdict is invariant under permutation of the chain. -/
theorem pin_match_whole_chain_permutation_invariant (env : Ca.Env)
    (fp : List Nat) (chain chain2 : List Nat) (hperm : chain.Perm chain2) :
    (Ca.verifyFingerprint env fp chain = none ↔
      ∃ raw ∈ chain, ∃ cert, env.parse raw = some cert ∧
        env.sum256 cert = fp) ∧
    Ca.verifyFingerprint env fp chain = Ca.verifyFingerprint env fp chain2 := by
  constructor
  · rw [verifyFingerprint_none_iff_matchesSpec, matchesSpec_eq_true_iff]
    simp
  · have hany : matchesSpec env.parse env.sum256 [fp] chain =
        matchesSpec env.parse env.sum256 [fp] chain2 := by
      cases h1 : matchesSpec env.parse env.sum256 [fp] chain <;>
        cases h2 : matchesSpec env.parse env.sum256 [fp] chain2 <;>
        try rfl
      · rw [matchesSpec_eq_true_iff] at h2
        rcases h2 with ⟨raw, hraw, hrest⟩
        have : matchesSpec env.parse env.sum256 [fp] chain = true := by
          rw [matchesSpec_eq_true_iff]
          exact ⟨raw, hperm.mem_iff.mpr hraw, hrest⟩
        rw [h1] at this
        exact absurd this (by simp)
      · rw [matchesSpec_eq_true_iff] at h1
        rcases h1 with ⟨raw, hraw, hrest⟩
        have : matchesSpec env.parse env.sum256 [fp] chain2 = true := by
          rw [matchesSpec_eq_true_iff]
          exact ⟨raw, hperm.mem_iff.mp hraw, hrest⟩
        rw [h2] at this
        exact absurd this (by simp)
    rw [verifyFingerprint_eq_ite, verifyFingerprint_eq_ite, hany]

/-- Witness for C4 at a concrete input: the pin is carried by certificate
2 (an intermediate presented first); both orders of the two-certificate
chain give the same verdict, and the chain with the pinned intermediate is
accepted. -/
theorem pin_match_whole_chain_permutation_invariant_witness :
    Ca.verifyFingerprint caEnvPin fpZeros [2, 1] =
      Ca.verifyFingerprint caEnvPin fpZeros [1, 2] ∧
    Ca.verifyFingerprint caEnvPin fpZeros [2, 1] = none :=
  ⟨(pin_match_whole_chain_permutation_invariant caEnvPin fpZeros [2, 1] [1, 2]
      (by decide)).2,
   (pin_match_whole_chain_permutation_invariant caEnvPin fpZeros [2, 1] [1, 2]
      (by decide)).1.mpr ⟨2, by decide, 2, rfl, by decide⟩⟩

/-- C5: `AddCertificate` returns an error to the caller — with the state,
custom set and pool unchanged — when the input text is empty, when PEM
decoding fails, or when X.509 parsing fails; on a valid single PEM
certificate it succeeds and appends the certificate to both the custom set
and the live pool.  (`log.Fatalln` on the PEM-decode path lives in the
repository's `log` package, outside the embedded source; it is modelled
from the spec as logging without terminating the process, so that the
error return below it is reached.) -/
theorem addCertificate_errors_and_success (env : Ca.Env) (s : Ca.CAState) :
    Ca.AddCertificate env s "" = .errored "certificate is empty" s ∧
    (∀ cert : String, ¬ cert = "" → env.pemDecode cert = none →
      Ca.AddCertificate env s cert = .errored "decode certificate failed" s) ∧
    (∀ (cert : String) (block : Nat), ¬ cert = "" →
      env.pemDecode cert = some block → env.parse block = none →
      Ca.AddCertificate env s cert = .errored "add certificate failed" s) ∧
    (∀ (cert : String) (block c : Nat) (pool : List Nat), ¬ cert = "" →
      env.pemDecode cert = some block → env.parse block = some c →
      s.globalCertPool = some pool →
      Ca.AddCertificate env s cert =
        .ok ⟨s.trustCerts ++ [c], some (pool ++ [c])⟩) := by
  refine ⟨by simp [Ca.AddCertificate], ?_, ?_, ?_⟩
  · intro cert h1 h2
    simp [Ca.AddCertificate, h1, h2]
  · intro cert block h1 h2 h3
    simp [Ca.AddCertificate, h1, h2, h3]
  · intro cert block c pool h1 h2 h3 h4
    simp [Ca.AddCertificate, h1, h2, h3, h4]

/-- Witness for C5 at concrete inputs: empty input, undecodable input, and
a valid certificate appended to both the custom set and the pool. -/
theorem addCertificate_errors_and_success_witness :
    Ca.AddCertificate caEnvPem ⟨[1], some [1, 2]⟩ "" =
      .errored "certificate is empty" ⟨[1], some [1, 2]⟩ ∧
    Ca.AddCertificate caEnvPem ⟨[1], some [1, 2]⟩ "bad" =
      .errored "decode certificate failed" ⟨[1], some [1, 2]⟩ ∧
    Ca.AddCertificate caEnvPem ⟨[1], some [1, 2]⟩ "goodPEM" =
      .ok ⟨[1, 3], some [1, 2, 3]⟩ :=
  ⟨(addCertificate_errors_and_success caEnvPem ⟨[1], some [1, 2]⟩).1,
   (addCertificate_errors_and_success caEnvPem ⟨[1], some [1, 2]⟩).2.1 "bad"
     (by decide) rfl,
   (addCertificate_errors_and_success caEnvPem ⟨[1], some [1, 2]⟩).2.2.2
     "goodPEM" 3 3 [1, 2] (by decide) rfl rfl rfl⟩

/-- C6: the claim states that a bundle entry whose X.509 parsing fails is
only warned about and skipped, the remaining entries still being added.
The code instead appends the nil certificate to `trustCerts` and calls
`CertPool.AddCert(nil)`, which panics in the Go standard library, so a
bundle `[7, 8]` whose first entry fails to parse panics (modelled `none`)
instead of adding certificate 8; a bundle of parseable entries is added
normally. -/
theorem addCertificateKeyPair_unparseable_entry_panics :
    Ca.AddCertificateKeyPair caEnvBadSeven ⟨[], some []⟩ [7, 8] = none ∧
    Ca.AddCertificateKeyPair caEnvBadSeven ⟨[], some []⟩ [8, 9] =
      some ⟨[8, 9], some [8, 9]⟩ :=
  ⟨rfl, rfl⟩

/-- C9: the claim states that every mutation of the shared trust state
holds the exclusive lock.  `AddCertificate`, `AddCertFingerprint` and
`ResetCertificate` do (their event traces are well-locked on every branch),
but `AddCertificateKeyPair` acquires no lock at all: its trace for a
one-entry bundle mutates with the lock depth at zero. -/
theorem mutation_locking_discipline :
    (∀ mutates : Bool,
      mutationsLocked (addCertificateTrace mutates) = true) ∧
    (∀ converted : Bool,
      mutationsLocked (addCertFingerprintTrace converted) = true) ∧
    mutationsLocked resetCertificateTrace = true ∧
    mutationsLocked (addCertificateKeyPairTrace 1) = false := by
  refine ⟨?_, ?_, rfl, rfl⟩ <;> (intro b; cases b <;> rfl)

/-- C7: after `ResetCertificate` the custom-certificate set is empty and
the pool is exactly the one rebuilt by `initializeCertPool` from the OS
roots (unless disabled) and the embedded roots (unless disabled); any
certificate outside those two sources — in particular every previously
added custom certificate — is gone from the pool, and a peer whose chain
validation depended on such a certificate is rejected against the rebuilt
pool. -/
theorem reset_discards_custom_certificates (env : Ca.Env) (s : Ca.CAState) :
    (Ca.ResetCertificate env s).trustCerts = [] ∧
    (Ca.ResetCertificate env s).globalCertPool =
      some (Ca.initializeCertPool env []) ∧
    (∀ c : Nat,
      c ∉ (if env.disableSystemCa then [] else env.systemCertPool.getD []) →
      c ∉ (if env.disableEmbedCa then [] else env.embedCerts) →
      c ∉ Ca.initializeCertPool env []) ∧
    (∀ peer c : Nat,
      (∀ pool : List Nat, env.verifyWith peer pool = true → c ∈ pool) →
      c ∉ (if env.disableSystemCa then [] else env.systemCertPool.getD []) →
      c ∉ (if env.disableEmbedCa then [] else env.embedCerts) →
      env.verifyWith peer (Ca.initializeCertPool env []) = false) := by
  have hmem : ∀ c : Nat,
      c ∉ (if env.disableSystemCa then [] else env.systemCertPool.getD []) →
      c ∉ (if env.disableEmbedCa then [] else env.embedCerts) →
      c ∉ Ca.initializeCertPool env [] := by
    intro c h1 h2 hc
    rw [Ca.initializeCertPool] at hc
    rcases List.mem_append.mp hc with hc2 | hc2
    · rcases List.mem_append.mp hc2 with hc3 | hc3
      · exact h1 hc3
      · simp at hc3
    · exact h2 hc2
  refine ⟨rfl, rfl, hmem, ?_⟩
  intro peer c honly h1 h2
  cases hv : env.verifyWith peer (Ca.initializeCertPool env []) with
  | false => rfl
  | true => exact absurd (honly _ hv) (hmem c h1 h2)

/-- Witness for C7 at a concrete input: the state held custom certificate
12 (outside the OS root 10 and the embedded root 11); after the rebuild a
peer that validates only through certificate 12 is rejected. -/
theorem reset_discards_custom_certificates_witness :
    (Ca.ResetCertificate caEnvRoots ⟨[12], some [10, 12, 11]⟩).trustCerts =
      [] ∧
    caEnvRoots.verifyWith 12 (Ca.initializeCertPool caEnvRoots []) = false :=
  ⟨(reset_discards_custom_certificates caEnvRoots
      ⟨[12], some [10, 12, 11]⟩).1,
   (reset_discards_custom_certificates caEnvRoots
      ⟨[12], some [10, 12, 11]⟩).2.2.2 12 12
     (fun _pool h => of_decide_eq_true h) (by decide) (by decide)⟩

/-- C8: with both disable flags set and no custom certificates, the lazily
built pool is empty — the build itself never fails — and standard
chain-only verification against the empty pool (which, per the Go
standard library, succeeds for no certificate) rejects every peer. -/
theorem disabled_roots_empty_pool_rejects (env : Ca.Env) (s : Ca.CAState)
    (h1 : env.disableSystemCa = true) (h2 : env.disableEmbedCa = true)
    (h3 : s.trustCerts = []) (h4 : s.globalCertPool = none)
    (hv : ∀ peer, env.verifyWith peer [] = false) :
    (Ca.getCertPool env s).1 = [] ∧
    ∀ peer, env.verifyWith peer (Ca.getCertPool env s).1 = false := by
  have hpool : (Ca.getCertPool env s).1 = [] := by
    simp [Ca.getCertPool, h4, Ca.initializeCertPool, h1, h2, h3]
  exact ⟨hpool, fun peer => by rw [hpool]; exact hv peer⟩

/-- Witness for C8 at a concrete input: the environment has OS root 10 and
embedded root 11 but both flags disabled, so the pool comes out empty and
peer 7 is rejected. -/
theorem disabled_roots_empty_pool_rejects_witness :
    (Ca.getCertPool caEnvRootsDisabled ⟨[], none⟩).1 = [] ∧
    caEnvRootsDisabled.verifyWith 7
      (Ca.getCertPool caEnvRootsDisabled ⟨[], none⟩).1 = false :=
  ⟨(disabled_roots_empty_pool_rejects caEnvRootsDisabled ⟨[], none⟩ rfl rfl
      rfl rfl (fun peer => by simp [caEnvRootsDisabled, caEnvRoots])).1,
   (disabled_roots_empty_pool_rejects caEnvRootsDisabled ⟨[], none⟩ rfl rfl
      rfl rfl (fun peer => by simp [caEnvRootsDisabled, caEnvRoots])).2 7⟩

/-- C10: when the caller's config already has `InsecureSkipVerify` set,
the callback installed by the `tls`-package `GetSpecifiedFingerprintTLSConfig`
or `GetGlobalFingerprintTLSConfig` is closed over that original flag and
therefore returns nil immediately for every presented chain, checking
neither chain validity nor any fingerprint. -/
theorem insecure_flag_callback_accepts_everything (env : Tls.Env)
    (cfg : Tls.Config) (fingerprint : String)
    (globalFingerprints : List (List Nat))
    (hskip : cfg.insecureSkipVerify = true) :
    (∀ cfg2,
      Tls.GetSpecifiedFingerprintTLSConfig env (some cfg) fingerprint =
        some cfg2 →
      ∀ rawCerts, cfg2.verifyPeerCertificate rawCerts = none) ∧
    (∀ rawCerts,
      (Tls.GetGlobalFingerprintTLSConfig env globalFingerprints
        (some cfg)).verifyPeerCertificate rawCerts = none) := by
  constructor
  · intro cfg2 h rawCerts
    cases hc : Tls.convertFingerprint fingerprint with
    | none => simp [Tls.GetSpecifiedFingerprintTLSConfig, hc] at h
    | some fpBytes =>
      simp only [Tls.GetSpecifiedFingerprintTLSConfig, hc,
        Option.some.injEq] at h
      rw [← h]
      simp [Tls.verifyPeerCertificateAndFingerprints, hskip]
  · intro rawCerts
    simp [Tls.GetGlobalFingerprintTLSConfig,
      Tls.verifyPeerCertificateAndFingerprints, hskip]


/-- Witness for C10 at concrete inputs: with the caller's skip flag
already true, both installed callbacks accept a concrete two-certificate
chain outright. -/
theorem insecure_flag_callback_accepts_everything_witness :
    cfgSkipTrueSpecified.verifyPeerCertificate [0, 1] = none ∧
    (Tls.GetGlobalFingerprintTLSConfig tlsEnvChainOk []
      (some cfgSkipTrue)).verifyPeerCertificate [0, 1] = none :=
  ⟨(insecure_flag_callback_accepts_everything tlsEnvChainOk cfgSkipTrue
      zeros64 [] rfl).1 cfgSkipTrueSpecified rfl [0, 1],
   (insecure_flag_callback_accepts_everything tlsEnvChainOk cfgSkipTrue
      zeros64 [] rfl).2 [0, 1]⟩

/-- C2, counterexample: under the `tls`-package
`GetSpecifiedFingerprintTLSConfig` the trust decision is not the pin
match.  Certificate 5 chain-validates but its digest `fpOnes` differs from
the pinned `fpZeros`; the installed callback nevertheless accepts the
chain `[5]`, while the spec's pin match on that chain is false. -/
theorem specified_fingerprint_accepts_unpinned_valid_cert :
    ((Tls.GetSpecifiedFingerprintTLSConfig tlsEnvChainOk none zeros64).map
        (fun cfg => cfg.verifyPeerCertificate [5])) = some none ∧
    matchesSpec tlsEnvChainOk.parse tlsEnvChainOk.sum256 [fpZeros] [5] =
      false :=
  ⟨rfl, rfl⟩

/-- C2 (amended): with a non-empty explicit fingerprint the skip flag is
forced on in both packages, but only the `ca` package is pin-only: the
`ca`-package `GetTLSConfig` installs a callback whose decision equals
exactly the pin match on the supplied fingerprint, while the
`tls`-package `GetSpecifiedFingerprintTLSConfig` callback (when the
caller's original skip flag was off or no config was passed) additionally
accepts any chain containing a certificate that chain-validates against
the system roots, and accepts any chain in which no certificate parses. -/
theorem explicit_fingerprint_trust_decision :
    (∀ (env : Ca.Env) (s : Ca.CAState) (tlsConfig : Option Tls.Config)
        (fingerprint : String) (fpBytes : List Nat)
        (out : Tls.Config × Ca.CAState),
      Ca.convertFingerprint fingerprint = some fpBytes →
      0 < fingerprint.length →
      Ca.GetTLSConfig env s tlsConfig fingerprint "" "" = some out →
      out.1.insecureSkipVerify = true ∧
      ∀ chain, (out.1.verifyPeerCertificate chain = none ↔
        matchesSpec env.parse env.sum256 [fpBytes] chain = true)) ∧
    (∀ (env : Tls.Env) (tlsConfig : Option Tls.Config) (fingerprint : String)
        (fpBytes : List Nat) (cfg : Tls.Config),
      Tls.convertFingerprint fingerprint = some fpBytes →
      (∀ c, tlsConfig = some c → c.insecureSkipVerify = false) →
      Tls.GetSpecifiedFingerprintTLSConfig env tlsConfig fingerprint =
        some cfg →
      cfg.insecureSkipVerify = true ∧
      ∀ chain, (cfg.verifyPeerCertificate chain = none ↔
        (matchesSpec env.parse env.sum256 [fpBytes] chain = true ∨
         chain.any (Tls.certChainValidates env) = true ∨
         chain.all (fun raw => !(env.parse raw).isSome) = true))) := by
  constructor
  · intro env s tlsConfig fingerprint fpBytes out hconv hlen hout
    have hbase : ∀ (s2 : Ca.CAState) (cfg : Tls.Config),
        Ca.getTLSConfigBase env s2 cfg "" "" =
          some ({ cfg with rootCAs := (Ca.getCertPool env s2).1 },
            (Ca.getCertPool env s2).2) := by
      intro s2 cfg
      simp [Ca.getTLSConfigBase]
    have hlen2 : fingerprint.length > 0 := hlen
    simp only [Ca.GetTLSConfig, hbase, hlen2, if_true, hconv] at hout
    rw [← Option.some.inj hout]
    refine ⟨rfl, ?_⟩
    intro chain
    exact verifyFingerprint_none_iff_matchesSpec env fpBytes chain
  · intro env tlsConfig fingerprint fpBytes cfg hconv hskip hcfg
    have hcb : cfg.verifyPeerCertificate =
        Tls.verifyPeerCertificateAndFingerprints env [fpBytes] false ∧
        cfg.insecureSkipVerify = true := by
      cases tlsConfig with
      | none =>
        simp only [Tls.GetSpecifiedFingerprintTLSConfig, hconv,
          Option.some.injEq] at hcfg
        rw [← hcfg]
        exact ⟨rfl, rfl⟩
      | some c =>
        have hc := hskip c rfl
        simp only [Tls.GetSpecifiedFingerprintTLSConfig, hconv,
          Option.some.injEq] at hcfg
        rw [← hcfg]
        exact ⟨by simp [hc], rfl⟩
    refine ⟨hcb.2, ?_⟩
    intro chain
    rw [hcb.1]
    rw [show Tls.verifyPeerCertificateAndFingerprints env [fpBytes] false
          chain = Tls.verifyLoop env [fpBytes] chain none from rfl]
    rw [verifyLoop_none_eq_none_iff, any_certOkOrPinned_split]
    simp only [Bool.or_eq_true]
    tauto


/-- Witness for the amended C2 at concrete inputs: the `ca`-package
decision on the chain `[2, 1]` equals the pin match, and the
`tls`-package decision on the chain `[5]` equals the three-way acceptance
condition. -/
theorem explicit_fingerprint_trust_decision_witness :
    (c2CaConfig.verifyPeerCertificate [2, 1] = none ↔
      matchesSpec caEnvPin.parse caEnvPin.sum256 [fpZeros] [2, 1] = true) ∧
    (c2TlsConfig.verifyPeerCertificate [5] = none ↔
      (matchesSpec tlsEnvChainOk.parse tlsEnvChainOk.sum256 [fpZeros] [5] =
          true ∨
       ([5] : List Nat).any (Tls.certChainValidates tlsEnvChainOk) = true ∨
       ([5] : List Nat).all
         (fun raw => !(tlsEnvChainOk.parse raw).isSome) = true)) :=
  ⟨(explicit_fingerprint_trust_decision.1 caEnvPin ⟨[], none⟩ none zeros64
      fpZeros (c2CaConfig, ⟨[], some []⟩) rfl (by decide) rfl).2 [2, 1],
   (explicit_fingerprint_trust_decision.2 tlsEnvChainOk none zeros64 fpZeros
      c2TlsConfig rfl (fun _c h => Option.noConfusion h) rfl).2 [5]⟩

/-- C3, counterexample: the claim quantifies over both `convertFingerprint`
functions, but the `tls`-package one performs no colon or whitespace
stripping: on the colon-separated rendering of the all-zero digest it
fails, even though the string after removing colons and surrounding
whitespace is a valid 64-character hex string decoding to 32 bytes (as
both the `ca`-package parse and the direct decode show). -/
theorem tls_convertFingerprint_rejects_colon_format :
    Tls.convertFingerprint colonZeros = none ∧
    Ca.convertFingerprint colonZeros = some fpZeros ∧
    hexDecodeBytes (trimSpace (colonZeros.data.filter (fun c => !(c == ':')))) =
      some fpZeros :=
  ⟨rfl, rfl, rfl⟩

/-- C3 (amended): the `ca`-package `convertFingerprint` succeeds exactly
when the input, after removing colons and surrounding whitespace, is a
64-character hex string (either letter case), and then returns its 32
decoded bytes — so every colon/case formatting of a 32-byte digest parses
back to that digest; the `tls`-package `convertFingerprint` performs no
stripping and succeeds exactly on plain 64-character hex strings. -/
theorem fingerprint_codec_characterization :
    (∀ s : String, (Ca.convertFingerprint s).isSome = true ↔
      ((trimSpace (s.data.filter (fun c => !(c == ':')))).length = 64 ∧
       ∀ c ∈ trimSpace (s.data.filter (fun c => !(c == ':'))),
         (hexDigitVal c).isSome = true)) ∧
    (∀ s : String, (Tls.convertFingerprint s).isSome = true ↔
      (s.data.length = 64 ∧ ∀ c ∈ s.data, (hexDigitVal c).isSome = true)) ∧
    (∀ (upper withColons : Bool) (bs : List Nat), bs.length = 32 →
      (∀ b ∈ bs, b < 256) →
      Ca.convertFingerprint (formatFingerprint upper withColons bs) =
        some bs) :=
  ⟨fun s => convertCore_iff (trimSpace (s.data.filter (fun c => !(c == ':')))),
   fun s => convertCore_iff s.data,
   convertFingerprint_formatFingerprint⟩

/-- Witness for the amended C3 at concrete inputs: the colon-separated
upper-case formatting of the all-zero digest parses back to it, and the
plain 64-zero string satisfies the `tls`-package characterization. -/
theorem fingerprint_codec_characterization_witness :
    Ca.convertFingerprint (formatFingerprint true true fpZeros) =
      some fpZeros ∧
    ((Tls.convertFingerprint zeros64).isSome = true ↔
      (zeros64.data.length = 64 ∧
       ∀ c ∈ zeros64.data, (hexDigitVal c).isSome = true)) :=
  ⟨fingerprint_codec_characterization.2.2 true true fpZeros (by decide)
     (by decide),
   fingerprint_codec_characterization.2.1 zeros64⟩
